import Mathlib

/-
Verification development for the University Bookstore API
(FastAPI microservice: `main.py`, `models/category.py`, `models/product.py`).

Shallow embedding conventions:
- `UUID` values are modelled as `Nat` (opaque identifiers; uuid4 generation is
  modelled by letting the generated id be an arbitrary parameter of the
  operation).
- `datetime` values are modelled as `Nat` clock ticks; each `datetime.utcnow()`
  call site becomes an explicit parameter of the operation.
- `Decimal` values are modelled as `ℚ` (Python's `Decimal` is exact arbitrary
  precision decimal arithmetic, which embeds in `ℚ`).
- Python's `float(...)` conversion (used by `list_products` for the price
  filters) is modelled by `toF64`, rounding a rational to the nearest IEEE-754
  binary64 value (round to nearest, ties to even, with subnormal values below
  `2^(-1074)` handled by clamping the unit in the last place; overflow to
  infinity above `2^1024` is not modelled — prices near that magnitude still
  round to finite values here, matching Python for every input used below).
- Python dicts keyed by UUID are modelled as lists in insertion order;
  `d[k] = v` replaces in place when the key is present and appends otherwise,
  `del d[k]` removes the entry, `k in d` is an `any` test.
- Pydantic update models use `model_dump(exclude_unset=True)`: a field of an
  update payload is modelled as `Option (Option τ)` when the JSON value may be
  `null` — the outer `Option` is "was the field set in the payload", the inner
  one is "was it null".  Re-validating the merged dict against the Read model
  (`CategoryRead(**current)` / `ProductRead(**current)`) fails when a required
  (non-Optional) field received `null`; that pydantic `ValidationError` raised
  inside the handler is modelled as `Err.validation`.
-/

/-! ### IEEE-754 binary64 rounding of a rational (models Python `float(Decimal)`) -/

/-- Fuel-driven base-2 logarithm: `log2fuel fuel n` is `⌊log₂ n⌋` (0 for
`n = 0`) whenever `n ≤ fuel`. -/
def log2fuel : Nat → Nat → Nat
  | 0, _ => 0
  | fuel + 1, n => if 2 ≤ n then log2fuel fuel (n / 2) + 1 else 0

/-- Computes `⌊log₂ n⌋` for positive `n` (0 for `n = 0`). -/
def nlog2 (n : Nat) : Nat := log2fuel n n

/-- Round the nonnegative fraction `n / d` (for `d ≠ 0`) to the nearest
natural number, ties to even. -/
def rneNat (n d : Nat) : Nat :=
  let m := n / d
  let r := n % d
  if 2 * r < d then m
  else if d < 2 * r then m + 1
  else if m % 2 = 0 then m else m + 1

/-- Largest `e : ℤ` with `2^e ≤ na / d`, for `na, d > 0` (the first guess
`⌊log₂ na⌋ - ⌊log₂ d⌋` is off by at most one, fixed by one comparison). -/
def ilog2nd (na d : Nat) : ℤ :=
  let g : ℤ := (nlog2 na : ℤ) - (nlog2 d : ℤ)
  if 0 ≤ g then (if d * 2 ^ g.toNat ≤ na then g else g - 1)
  else (if d ≤ na * 2 ^ (-g).toNat then g else g - 1)

/-- Round a rational to the nearest IEEE-754 binary64 value (round to nearest,
ties to even; subnormals below `2^(-1022)` get the fixed ulp `2^(-1074)`;
overflow to infinity is not modelled), returned as the exact rational the
binary64 value denotes.  Models Python's `float(...)` applied to a `Decimal`
(or to a decimal string by FastAPI's query parser).  The mantissa arithmetic
is carried out on the numerator and denominator directly: with `ulp = 2^k`,
the rounded magnitude is `rne(|q| / 2^k) * 2^k`. -/
def toF64 (q : ℚ) : ℚ :=
  if q.num = 0 then 0
  else
    let na : Nat := q.num.natAbs
    let d : Nat := q.den
    let e : ℤ := ilog2nd na d
    let k : ℤ := if e - 52 < -1074 then -1074 else e - 52
    let m : Nat := if 0 ≤ k then rneNat na (d * 2 ^ k.toNat)
                   else rneNat (na * 2 ^ (-k).toNat) d
    let mag : ℚ := if 0 ≤ k then mkRat (m * 2 ^ k.toNat) 1 else mkRat m (2 ^ (-k).toNat)
    if q.num < 0 then -mag else mag

/-! ### Case handling and substring matching on strings -/

/-- Python's `str.lower()` (per-character case mapping). -/
def strLower (s : String) : String := ⟨s.data.map Char.toLower⟩

/-- Python's `str.upper()` (per-character case mapping). -/
def strUpper (s : String) : String := ⟨s.data.map Char.toUpper⟩

/-- The test `strContains needle hay` is Python's `needle in hay` on strings:
`needle` occurs as a contiguous substring of `hay` (true when `needle` is
empty). -/
def strContains (needle hay : String) : Bool :=
  hay.data.tails.any (fun t => needle.data.isPrefixOf t)

/-! ### Data model (models/category.py, models/product.py) -/

/-- Schema `CategoryCreate` after pydantic validation: `name` required, `description`
optional (default null), `is_active` defaulting to true. -/
structure CategoryCreate where
  name : String
  description : Option String := none
  is_active : Bool := true
  deriving Repr, DecidableEq

/-- Schema `CategoryRead`: the stored/returned representation of a category. -/
structure CategoryRead where
  id : Nat
  name : String
  description : Option String
  is_active : Bool
  created_at : Nat
  updated_at : Nat
  deriving Repr, DecidableEq

/-- Schema `CategoryUpdate` with pydantic unset-tracking: for each field the outer
`Option` records whether the payload set the field at all, the inner `Option`
whether it was set to JSON `null`. -/
structure CategoryUpdate where
  name : Option (Option String) := none
  description : Option (Option String) := none
  is_active : Option (Option Bool) := none
  deriving Repr, DecidableEq

/-- Schema `ProductCreate` after pydantic validation. -/
structure ProductCreate where
  name : String
  description : Option String := none
  sku : String
  price : ℚ
  sale_price : Option ℚ := none
  cost : Option ℚ := none
  stock_quantity : ℤ
  reorder_level : ℤ
  category_id : Nat
  size : Option String := none
  color : Option String := none
  material : Option String := none
  is_active : Bool := true
  deriving Repr, DecidableEq

/-- Schema `ProductRead`: the stored/returned representation of a product. -/
structure ProductRead where
  id : Nat
  name : String
  description : Option String
  sku : String
  price : ℚ
  sale_price : Option ℚ
  cost : Option ℚ
  stock_quantity : ℤ
  reorder_level : ℤ
  category_id : Nat
  size : Option String
  color : Option String
  material : Option String
  is_active : Bool
  created_at : Nat
  updated_at : Nat
  deriving Repr, DecidableEq

/-- Schema `ProductUpdate` with pydantic unset-tracking (see `CategoryUpdate`). -/
structure ProductUpdate where
  name : Option (Option String) := none
  description : Option (Option String) := none
  sku : Option (Option String) := none
  price : Option (Option ℚ) := none
  sale_price : Option (Option ℚ) := none
  cost : Option (Option ℚ) := none
  stock_quantity : Option (Option ℤ) := none
  reorder_level : Option (Option ℤ) := none
  category_id : Option (Option Nat) := none
  size : Option (Option String) := none
  color : Option (Option String) := none
  material : Option (Option String) := none
  is_active : Option (Option Bool) := none
  deriving Repr, DecidableEq

/-- The two in-memory stores (`categories` and `products` dicts in main.py),
in insertion order. -/
structure State where
  categories : List CategoryRead
  products : List ProductRead
  deriving Repr, DecidableEq

/-- The empty stores at process start. -/
def State.empty : State := ⟨[], []⟩

/-- Errors a handler can raise: `http s d` is `HTTPException(status_code=s,
detail=d)`; `validation` is a pydantic `ValidationError` raised while
re-validating a merged update dict against the Read model. -/
inductive Err where
  | http : Nat → String → Err
  | validation : Err
  deriving Repr, DecidableEq

deriving instance DecidableEq for Except

/-! ### Dict insertion (replace-at-key or append, insertion order kept) -/

/-- Dict insertion `d[key a] = a` on the insertion-ordered dict model: replace in place when
the key is already present, append otherwise. -/
def dictInsert (key : α → Nat) (l : List α) (a : α) : List α :=
  if l.any (fun x => key x == key a) then
    l.map (fun x => if key x == key a then a else x)
  else l ++ [a]

/-- Category dict insertion `categories[c.id] = c` on the insertion-ordered dict model. -/
def insertCat (l : List CategoryRead) (c : CategoryRead) : List CategoryRead :=
  dictInsert (fun x => x.id) l c

/-- Product dict insertion `products[p.id] = p` on the insertion-ordered dict model. -/
def insertProd (l : List ProductRead) (p : ProductRead) : List ProductRead :=
  dictInsert (fun x => x.id) l p

/-! ### Category handlers (main.py lines 62-128) -/

/-- Handler `POST /categories` (`create_category`): build a `CategoryRead` with a fresh
id and both timestamps read from the clock (`id_`, `t1`, `t2` are the values
produced by `uuid4()` and the two `datetime.utcnow()` default factories, in
field order), insert it, return it. -/
def create_category (id_ t1 t2 : Nat) (category : CategoryCreate) (st : State) :
    State × CategoryRead :=
  let category_read : CategoryRead :=
    { id := id_, name := category.name, description := category.description,
      is_active := category.is_active, created_at := t1, updated_at := t2 }
  ({ st with categories := insertCat st.categories category_read }, category_read)

/-- Handler `GET /categories` (`list_categories`): optional case-insensitive name
substring filter and exact `is_active` filter. -/
def list_categories (name : Option String) (is_active : Option Bool) (st : State) :
    List CategoryRead :=
  let results := st.categories
  let results := match name with
    | none => results
    | some n => results.filter (fun c => strContains (strLower n) (strLower c.name))
  let results := match is_active with
    | none => results
    | some b => results.filter (fun c => c.is_active == b)
  results

/-- Handler `GET /categories/{category_id}` (`get_category`). -/
def get_category (category_id : Nat) (st : State) : Except Err CategoryRead :=
  match st.categories.find? (fun c => c.id == category_id) with
  | none => .error (.http 404 "Category not found")
  | some c => .ok c

/-- Handler `PUT /categories/{category_id}` (`update_category`): merge the set fields of
the payload over the stored dict, stamp `updated_at := now`, re-validate as
`CategoryRead` and store.  A required field set to `null` makes the
re-validation fail. -/
def update_category (category_id now : Nat) (update : CategoryUpdate) (st : State) :
    Except Err (State × CategoryRead) :=
  match st.categories.find? (fun c => c.id == category_id) with
  | none => .error (.http 404 "Category not found")
  | some current =>
    match update.name.getD (some current.name),
          update.is_active.getD (some current.is_active) with
    | some n, some b =>
      let updated_category : CategoryRead :=
        { id := current.id, name := n,
          description := update.description.getD current.description,
          is_active := b,
          created_at := current.created_at, updated_at := now }
      .ok ({ st with categories :=
               st.categories.map (fun c => if c.id == category_id then updated_category else c) },
           updated_category)
    | _, _ => .error .validation

/-- Handler `DELETE /categories/{category_id}` (`delete_category`): 404 when absent,
409-style 400 with the count of referencing products when any product uses the
category, otherwise remove the entry. -/
def delete_category (category_id : Nat) (st : State) : Except Err State :=
  if !(st.categories.any (fun c => c.id == category_id)) then
    .error (.http 404 "Category not found")
  else
    let products_using_category := st.products.filter (fun p => p.category_id == category_id)
    if products_using_category.length > 0 then
      .error (.http 400
        ("Cannot delete category. " ++ toString products_using_category.length ++
         " products are using this category."))
    else
      .ok { st with categories := st.categories.filter (fun c => !(c.id == category_id)) }

/-! ### Product handlers (main.py lines 134-215) -/

/-- Handler `POST /products` (`create_product`): reject with 400 when `category_id`
does not name an existing category, otherwise assign id and timestamps and
insert. -/
def create_product (id_ t1 t2 : Nat) (product : ProductCreate) (st : State) :
    Except Err (State × ProductRead) :=
  if !(st.categories.any (fun c => c.id == product.category_id)) then
    .error (.http 400 "Category not found")
  else
    let product_read : ProductRead :=
      { id := id_, name := product.name, description := product.description,
        sku := product.sku, price := product.price, sale_price := product.sale_price,
        cost := product.cost, stock_quantity := product.stock_quantity,
        reorder_level := product.reorder_level, category_id := product.category_id,
        size := product.size, color := product.color, material := product.material,
        is_active := product.is_active, created_at := t1, updated_at := t2 }
    .ok ({ st with products := insertProd st.products product_read }, product_read)

/-- Query filters of `GET /products`.  `min_price` and `max_price` are the
binary64 values produced by the query-string parser (`Optional[float]`). -/
structure ProductFilters where
  name : Option String := none
  sku : Option String := none
  category_id : Option Nat := none
  is_active : Option Bool := none
  min_price : Option ℚ := none
  max_price : Option ℚ := none
  low_stock : Option Bool := none
  deriving Repr, DecidableEq

/-- One optional filter stage of a list handler: `if x is not None: results =
[r for r in results if pred(x, r)]`. -/
def optFilter (o : Option β) (f : β → γ → Bool) (l : List γ) : List γ :=
  match o with
  | none => l
  | some b => l.filter (f b)

/-- The low-stock stage of `list_products`: `if low_stock is not None and
low_stock: results = [p for p in results if p.stock_quantity <=
p.reorder_level]`. -/
def lowStockFilter (o : Option Bool) (l : List ProductRead) : List ProductRead :=
  match o with
  | none => l
  | some b =>
    if b then l.filter (fun p => decide (p.stock_quantity ≤ p.reorder_level)) else l

/-- Handler `GET /products` (`list_products`): the seven optional filters applied in
source order.  Price comparisons happen on `float(p.price)`, i.e. after
binary64 rounding. -/
def list_products (f : ProductFilters) (st : State) : List ProductRead :=
  let results := st.products
  let results := optFilter f.name (fun n p => strContains (strLower n) (strLower p.name)) results
  let results := optFilter f.sku (fun s p => strContains (strUpper s) (strUpper p.sku)) results
  let results := optFilter f.category_id (fun cid p => p.category_id == cid) results
  let results := optFilter f.is_active (fun b p => p.is_active == b) results
  let results := optFilter f.min_price (fun m p => decide (m ≤ toF64 p.price)) results
  let results := optFilter f.max_price (fun m p => decide (toF64 p.price ≤ m)) results
  let results := lowStockFilter f.low_stock results
  results

/-- Handler `GET /products/{product_id}` (`get_product`). -/
def get_product (product_id : Nat) (st : State) : Except Err ProductRead :=
  match st.products.find? (fun p => p.id == product_id) with
  | none => .error (.http 404 "Product not found")
  | some p => .ok p

/-- Handler `PUT /products/{product_id}` (`update_product`): 404 when the product is
absent; 400 when the payload carries a non-null `category_id` that names no
existing category (`update.category_id is not None and update.category_id not
in categories`); otherwise merge the set fields, stamp `updated_at := now`,
re-validate as `ProductRead` and store. -/
def update_product (product_id now : Nat) (update : ProductUpdate) (st : State) :
    Except Err (State × ProductRead) :=
  match st.products.find? (fun p => p.id == product_id) with
  | none => .error (.http 404 "Product not found")
  | some current =>
    if (match update.category_id with
        | some (some cid) => !(st.categories.any (fun c => c.id == cid))
        | _ => false) then
      .error (.http 400 "Category not found")
    else
      match update.name.getD (some current.name),
            update.sku.getD (some current.sku),
            update.price.getD (some current.price),
            update.stock_quantity.getD (some current.stock_quantity),
            update.reorder_level.getD (some current.reorder_level),
            update.category_id.getD (some current.category_id),
            update.is_active.getD (some current.is_active) with
      | some n, some s, some pr, some sq, some rl, some ci, some ia =>
        let updated_product : ProductRead :=
          { id := current.id, name := n,
            description := update.description.getD current.description,
            sku := s, price := pr,
            sale_price := update.sale_price.getD current.sale_price,
            cost := update.cost.getD current.cost,
            stock_quantity := sq, reorder_level := rl, category_id := ci,
            size := update.size.getD current.size,
            color := update.color.getD current.color,
            material := update.material.getD current.material,
            is_active := ia,
            created_at := current.created_at, updated_at := now }
        .ok ({ st with products :=
                 st.products.map (fun p => if p.id == product_id then updated_product else p) },
             updated_product)
      | _, _, _, _, _, _, _ => .error .validation

/-- Handler `DELETE /products/{product_id}` (`delete_product`): 404 when absent,
otherwise remove unconditionally. -/
def delete_product (product_id : Nat) (st : State) : Except Err State :=
  if !(st.products.any (fun p => p.id == product_id)) then
    .error (.http 404 "Product not found")
  else
    .ok { st with products := st.products.filter (fun p => !(p.id == product_id)) }

/-! ### Operation sequences over the stores -/

/-- One mutating API call, with the values its clock / uuid reads produce. -/
inductive Op where
  | createCat (id_ t1 t2 : Nat) (p : CategoryCreate)
  | updateCat (id_ now : Nat) (u : CategoryUpdate)
  | deleteCat (id_ : Nat)
  | createProd (id_ t1 t2 : Nat) (p : ProductCreate)
  | updateProd (id_ now : Nat) (u : ProductUpdate)
  | deleteProd (id_ : Nat)
  deriving Repr, DecidableEq

/-- The store state after one call (an error leaves the stores untouched,
since every handler raises before mutating). -/
def runOp (st : State) (op : Op) : State :=
  match op with
  | .createCat id_ t1 t2 p => (create_category id_ t1 t2 p st).1
  | .updateCat id_ now u =>
    match update_category id_ now u st with
    | .ok (st2, _) => st2
    | .error _ => st
  | .deleteCat id_ =>
    match delete_category id_ st with
    | .ok st2 => st2
    | .error _ => st
  | .createProd id_ t1 t2 p =>
    match create_product id_ t1 t2 p st with
    | .ok (st2, _) => st2
    | .error _ => st
  | .updateProd id_ now u =>
    match update_product id_ now u st with
    | .ok (st2, _) => st2
    | .error _ => st
  | .deleteProd id_ =>
    match delete_product id_ st with
    | .ok st2 => st2
    | .error _ => st

/-- The state reached from the empty stores by a sequence of calls. -/
def runOps (ops : List Op) : State := ops.foldl runOp State.empty

/-! ### Derived definitions: invariants, traces, and sample data -/

/-- Referential integrity: every stored product's `category_id` is the id of a
category currently present in the category store. -/
def RefInt (st : State) : Prop :=
  ∀ p ∈ st.products, ∃ c ∈ st.categories, c.id = p.category_id

/-- A sample category with a given id. -/
def sampleCat (i : Nat) : CategoryRead :=
  { id := i, name := "Apparel", description := none, is_active := true,
    created_at := 0, updated_at := 0 }

/-- A sample product with a given id and category reference. -/
def sampleProd (i cid : Nat) : ProductRead :=
  { id := i, name := "Tee", description := none, sku := "T1", price := 10,
    sale_price := none, cost := none, stock_quantity := 1, reorder_level := 5,
    category_id := cid, size := none, color := none, material := none,
    is_active := true, created_at := 0, updated_at := 0 }

/-- A sample product-creation payload referencing a given category. -/
def sampleProdCreate (cid : Nat) : ProductCreate :=
  { name := "Tee", sku := "T1", price := 10, stock_quantity := 1,
    reorder_level := 5, category_id := cid }

/-- A product-update payload that only changes the category reference. -/
def catOnlyUpdate (cid : Nat) : ProductUpdate := { category_id := some (some cid) }

/-- A category-update payload setting only the name. -/
def renameUpdate : CategoryUpdate := { name := some (some ("Renamed")) }

/-- A product-update payload setting only the price. -/
def repriceUpdate : ProductUpdate := { price := some (some 99) }

/-- The category produced by applying `renameUpdate` to `sampleCat 1` at
clock 7. -/
def renamedCat : CategoryRead :=
  { id := 1, name := "Renamed", description := none, is_active := true,
    created_at := 0, updated_at := 7 }

/-- The product produced by applying `repriceUpdate` to `sampleProd 10 1` at
clock 9. -/
def repricedProd : ProductRead := { sampleProd 10 1 with price := 99, updated_at := 9 }

/-- The clock readings (`datetime.utcnow()` results) an operation consumes,
in the order the source reads them. -/
def opTimes : Op → List Nat
  | .createCat _ t1 t2 _ => [t1, t2]
  | .updateCat _ now _ => [now]
  | .deleteCat _ => []
  | .createProd _ t1 t2 _ => [t1, t2]
  | .updateProd _ now _ => [now]
  | .deleteProd _ => []

/-- All clock readings of a call sequence, in order. -/
def traceTimes (ops : List Op) : List Nat := (ops.map opTimes).flatten

/-- Predicate `mono lo ts`: the readings `ts` are non-decreasing and all at least `lo`
(a non-decreasing clock). -/
def mono : Nat → List Nat → Prop
  | _, [] => True
  | lo, t :: ts => lo ≤ t ∧ mono t ts

/-- The last reading of a trace (or `lo` when there is none). -/
def lastT : Nat → List Nat → Nat
  | lo, [] => lo
  | _, t :: ts => lastT t ts

/-- Timestamp invariant with clock bound `hi`: every stored entity has
`created_at ≤ updated_at ≤ hi`. -/
def TSInv (st : State) (hi : Nat) : Prop :=
  (∀ c ∈ st.categories, c.created_at ≤ c.updated_at ∧ c.updated_at ≤ hi)
  ∧ (∀ p ∈ st.products, p.created_at ≤ p.updated_at ∧ p.updated_at ≤ hi)

/-- The example products of the specification: a Mug at price 5 with stock 2
and reorder level 10, and a Hoodie at price 60 with stock 50 and reorder
level 5. -/
def mugProd : ProductRead :=
  { id := 10, name := "Mug", description := none, sku := "MUG-1", price := 5,
    sale_price := none, cost := none, stock_quantity := 2, reorder_level := 10,
    category_id := 1, size := none, color := none, material := none,
    is_active := true, created_at := 0, updated_at := 0 }

/-- The Hoodie of the specification example (see `mugProd`). -/
def hoodieProd : ProductRead :=
  { id := 11, name := "Hoodie", description := none, sku := "HD-1", price := 60,
    sale_price := none, cost := none, stock_quantity := 50, reorder_level := 5,
    category_id := 1, size := none, color := none, material := none,
    is_active := true, created_at := 0, updated_at := 0 }

/-- A product priced at `2^53 + 1`, which is not representable in binary64
(`float` rounds it down to `2^53`). -/
def bigPriceProd : ProductRead := { sampleProd 12 1 with price := 9007199254740993 }

/-- The creation payload of `sampleProdCreate 1` with an empty name. -/
def emptyNameProdCreate : ProductCreate := { sampleProdCreate 1 with name := "" }

/-- The stored product resulting from `emptyNameProdCreate`. -/
def emptyNameProd : ProductRead := { sampleProd 2 1 with name := "" }

/-- A category-update payload setting the name to the empty string. -/
def emptyNameCatUpdate : CategoryUpdate := { name := some (some ("")) }

/-- A product-update payload setting the name to the empty string. -/
def emptyNameProdUpdate : ProductUpdate := { name := some (some ("")) }

/-- The category produced by applying `emptyNameCatUpdate` to `sampleCat 1` at
clock 7. -/
def emptiedCat : CategoryRead :=
  { id := 1, name := "", description := none, is_active := true,
    created_at := 0, updated_at := 7 }

/-- The product produced by applying `emptyNameProdUpdate` to `sampleProd 10 1`
at clock 8. -/
def emptiedProd : ProductRead := { sampleProd 10 1 with name := "", updated_at := 8 }

/-! ### Lemmas about the insertion-ordered dict model -/

theorem mem_dictInsert {key : α → Nat} {l : List α} {a x : α}
    (h : x ∈ dictInsert key l a) : x ∈ l ∨ x = a := by
  unfold dictInsert at h
  split at h
  · obtain ⟨y, hy, hxy⟩ := List.mem_map.mp h
    by_cases hk : key y == key a
    · simp only [hk, if_true] at hxy
      exact Or.inr hxy.symm
    · simp only [hk, if_false, Bool.false_eq_true] at hxy
      exact Or.inl (hxy ▸ hy)
  · rcases List.mem_append.mp h with h1 | h1
    · exact Or.inl h1
    · exact Or.inr (List.mem_singleton.mp h1)

theorem self_mem_dictInsert (key : α → Nat) (l : List α) (a : α) :
    a ∈ dictInsert key l a := by
  unfold dictInsert
  split
  · next hany =>
    obtain ⟨y, hy, hky⟩ := List.any_eq_true.mp hany
    exact List.mem_map.mpr ⟨y, hy, by simp [hky]⟩
  · simp

theorem dictInsert_keeps_key {key : α → Nat} {l : List α} {a : α} {i : Nat}
    (h : ∃ y ∈ l, key y = i) : ∃ y ∈ dictInsert key l a, key y = i := by
  obtain ⟨y, hy, hyi⟩ := h
  by_cases hk : key y = key a
  · exact ⟨a, self_mem_dictInsert key l a, by rw [← hk, hyi]⟩
  · refine ⟨y, ?_, hyi⟩
    unfold dictInsert
    split
    · exact List.mem_map.mpr ⟨y, hy, by simp [hk]⟩
    · exact List.mem_append.mpr (Or.inl hy)

theorem mem_mapReplace {key : α → Nat} {l : List α} {u x : α} {k : Nat}
    (h : x ∈ l.map (fun y => if key y == k then u else y)) : x ∈ l ∨ x = u := by
  obtain ⟨y, hy, hxy⟩ := List.mem_map.mp h
  by_cases hk : key y == k
  · simp only [hk, if_true] at hxy
    exact Or.inr hxy.symm
  · simp only [hk, if_false, Bool.false_eq_true] at hxy
    exact Or.inl (hxy ▸ hy)

theorem mapReplace_keeps_key {key : α → Nat} {l : List α} {u : α} {k i : Nat}
    (hu : key u = k) (h : ∃ y ∈ l, key y = i) :
    ∃ y ∈ l.map (fun y => if key y == k then u else y), key y = i := by
  obtain ⟨y, hy, hyi⟩ := h
  by_cases hk : key y = k
  · exact ⟨u, List.mem_map.mpr ⟨y, hy, by simp [hk]⟩, by rw [hu, ← hk, hyi]⟩
  · exact ⟨y, List.mem_map.mpr ⟨y, hy, by simp [hk]⟩, hyi⟩

theorem find?_mapReplace {key : α → Nat} {l : List α} {a : α} {k : Nat}
    (hk : key a = k) (hany : l.any (fun x => key x == k) = true) :
    (l.map (fun x => if key x == k then a else x)).find? (fun x => key x == k) = some a := by
  induction l with
  | nil => simp at hany
  | cons y ys ih =>
    by_cases h : key y == k
    · have hyk : key y = k := by simpa using h
      simp [List.find?_cons, hyk, hk]
    · have hys : ys.any (fun x => key x == k) = true := by
        simpa [h] using hany
      simp only [List.map_cons, List.find?_cons, h, if_false, Bool.false_eq_true]
      exact ih hys

theorem find?_append_single {key : α → Nat} {l : List α} {a : α} {k : Nat}
    (hk : key a = k) (hnone : l.any (fun x => key x == k) = false) :
    (l ++ [a]).find? (fun x => key x == k) = some a := by
  induction l with
  | nil => simp [List.find?_cons, hk]
  | cons y ys ih =>
    have h : (key y == k) = false := by
      by_contra hc
      simp only [Bool.not_eq_false] at hc
      simp [hc] at hnone
    have hys : ys.any (fun x => key x == k) = false := by
      simpa [h] using hnone
    simp only [List.cons_append, List.find?_cons, h]
    exact ih hys

theorem find?_dictInsert {key : α → Nat} {l : List α} {a : α} {k : Nat}
    (hk : key a = k) :
    (dictInsert key l a).find? (fun x => key x == k) = some a := by
  subst hk
  unfold dictInsert
  split
  · next hany => exact find?_mapReplace rfl hany
  · next hnone =>
    exact find?_append_single rfl (by simpa using hnone)

/-! ### C1: referential integrity as an inductive invariant -/


theorem runOp_preserves_RefInt (st : State) (op : Op) (h : RefInt st) :
    RefInt (runOp st op) := by
  cases op with
  | createCat id_ t1 t2 p =>
    intro q hq
    exact dictInsert_keeps_key (h q hq)
  | updateCat id_ now u =>
    simp only [runOp]
    cases hu : update_category id_ now u st with
    | error e => exact h
    | ok res =>
      obtain ⟨st2, c2⟩ := res
      show RefInt st2
      unfold update_category at hu
      split at hu
      · simp at hu
      · next current hfind =>
        have hcur : current.id = id_ := by simpa using List.find?_some hfind
        split at hu
        · next n b hn hb =>
          injection hu with hres
          injection hres with h1 h2
          subst h1
          intro q hq
          exact mapReplace_keeps_key (by simpa using hcur) (h q hq)
        · simp at hu
  | deleteCat id_ =>
    simp only [runOp]
    cases hd : delete_category id_ st with
    | error e => exact h
    | ok st2 =>
      show RefInt st2
      simp only [delete_category] at hd
      split at hd
      · simp at hd
      · split at hd
        · simp at hd
        · next hlen =>
          injection hd with hst2
          subst hst2
          intro q hq
          obtain ⟨c, hc, hcid⟩ := h q hq
          have hempty : st.products.filter (fun p => p.category_id == id_) = [] :=
            List.length_eq_zero.mp (Nat.eq_zero_of_not_pos (by simpa using hlen))
          have hq2 : q.category_id ≠ id_ := by
            have := List.filter_eq_nil_iff.mp hempty q hq
            simpa using this
          refine ⟨c, List.mem_filter.mpr ⟨hc, ?_⟩, hcid⟩
          simp [hcid, hq2]
  | createProd id_ t1 t2 p =>
    simp only [runOp]
    cases hc : create_product id_ t1 t2 p st with
    | error e => exact h
    | ok res =>
      obtain ⟨st2, pr⟩ := res
      show RefInt st2
      unfold create_product at hc
      split at hc
      · simp at hc
      · next hguard =>
        injection hc with hres
        injection hres with h1 h2
        subst h1
        intro q hq
        rcases mem_dictInsert hq with hq1 | hq1
        · exact h q hq1
        · subst hq1
          have hany : st.categories.any (fun c => c.id == p.category_id) = true := by
            revert hguard
            simp
          obtain ⟨c, hc1, hc2⟩ := List.any_eq_true.mp hany
          exact ⟨c, hc1, by simpa using hc2⟩
  | updateProd id_ now u =>
    simp only [runOp]
    cases hu : update_product id_ now u st with
    | error e => exact h
    | ok res =>
      obtain ⟨st2, p2⟩ := res
      show RefInt st2
      unfold update_product at hu
      split at hu
      · simp at hu
      · next current hfind =>
        have hcur : current.id = id_ := by simpa using List.find?_some hfind
        have hmem : current ∈ st.products := List.mem_of_find?_eq_some hfind
        split at hu
        · simp at hu
        · next hguard =>
          split at hu
          · next n s pr sq rl ci ia hn hs hpr hsq hrl hci hia =>
            injection hu with hres
            injection hres with h1 h2
            subst h1
            intro q hq
            rcases mem_mapReplace hq with hq1 | hq1
            · exact h q hq1
            · subst hq1
              show ∃ c ∈ st.categories, c.id = ci
              cases hcat : u.category_id with
              | none =>
                rw [hcat] at hci
                simp only [Option.getD_none, Option.some.injEq] at hci
                subst hci
                exact h current hmem
              | some o =>
                rw [hcat] at hci
                simp only [Option.getD_some] at hci
                subst hci
                rw [hcat] at hguard
                have hany : st.categories.any (fun c => c.id == ci) = true := by
                  revert hguard
                  simp
                obtain ⟨c, hc1, hc2⟩ := List.any_eq_true.mp hany
                exact ⟨c, hc1, by simpa using hc2⟩
          · simp at hu
  | deleteProd id_ =>
    simp only [runOp]
    cases hd : delete_product id_ st with
    | error e => exact h
    | ok st2 =>
      show RefInt st2
      unfold delete_product at hd
      split at hd
      · simp at hd
      · injection hd with hst2
        subst hst2
        intro q hq
        exact h q (List.mem_filter.mp hq).1

theorem foldl_runOp_RefInt (ops : List Op) (st : State) (h : RefInt st) :
    RefInt (ops.foldl runOp st) := by
  induction ops generalizing st with
  | nil => exact h
  | cons op rest ih => exact ih _ (runOp_preserves_RefInt st op h)

/-- C1: in every store state reachable from the empty stores by any sequence
of category/product create, update, and delete calls, every product's
`category_id` is the id of a category currently present in the category store
(product create and update refuse a non-existent `category_id`, and category
delete refuses while referencing products exist). -/
theorem C1_referential_integrity (ops : List Op) : RefInt (runOps ops) :=
  foldl_runOp_RefInt ops State.empty (fun p hp => absurd hp (List.not_mem_nil p))

/-! ### Sample data used by witnesses -/

/-! ### C2: delete_category semantics -/

/-- C2: `delete_category` fails with 404 when the id is absent; fails with the
400 conflict error whose message contains the count of referencing products
when that count is at least one, leaving both stores unchanged; and otherwise
removes exactly that category. -/
theorem C2_delete_category (st : State) (category_id : Nat) :
    ((¬ ∃ c ∈ st.categories, c.id = category_id) →
      delete_category category_id st = .error (.http 404 "Category not found"))
    ∧ (∀ n, (∃ c ∈ st.categories, c.id = category_id) →
        n = (st.products.filter (fun p => p.category_id == category_id)).length →
        1 ≤ n →
        delete_category category_id st =
          .error (.http 400 ("Cannot delete category. " ++ toString n ++
            " products are using this category."))
        ∧ runOp st (.deleteCat category_id) = st)
    ∧ ((∃ c ∈ st.categories, c.id = category_id) →
        (∀ p ∈ st.products, p.category_id ≠ category_id) →
        delete_category category_id st =
          .ok ⟨st.categories.filter (fun c => !(c.id == category_id)), st.products⟩
        ∧ (∀ c, c ∈ st.categories.filter (fun c => !(c.id == category_id)) ↔
            c ∈ st.categories ∧ c.id ≠ category_id)) := by
  refine ⟨?_, ?_, ?_⟩
  · intro habs
    have hany : st.categories.any (fun c => c.id == category_id) = false := by
      rw [List.any_eq_false]
      intro c hc
      simp only [beq_iff_eq]
      exact fun he => habs ⟨c, hc, he⟩
    simp [delete_category, hany]
  · intro n hpresent hn hn1
    subst hn
    have hany : st.categories.any (fun c => c.id == category_id) = true := by
      rw [List.any_eq_true]
      obtain ⟨c, hc, he⟩ := hpresent
      exact ⟨c, hc, by simpa using he⟩
    have hlen : 0 < (st.products.filter (fun p => p.category_id == category_id)).length := hn1
    constructor
    · simp [delete_category, hany, hlen]
    · simp [runOp, delete_category, hany, hlen]
  · intro hpresent hnoref
    have hany : st.categories.any (fun c => c.id == category_id) = true := by
      rw [List.any_eq_true]
      obtain ⟨c, hc, he⟩ := hpresent
      exact ⟨c, hc, by simpa using he⟩
    have hfil : st.products.filter (fun p => p.category_id == category_id) = [] := by
      rw [List.filter_eq_nil_iff]
      intro p hp
      simpa using hnoref p hp
    refine ⟨by simp [delete_category, hany, hfil], ?_⟩
    intro c
    rw [List.mem_filter]
    simp

/-- Witness for C2 at concrete stores: id 2 absent (404); id 1 referenced by
two products (400 with the count 2 in the message, state unchanged); id 1 with
no referencing products (removed). -/
theorem C2_delete_category_witness :
    (delete_category 2 ⟨[sampleCat 1], [sampleProd 10 1, sampleProd 11 1]⟩ =
      .error (.http 404 "Category not found"))
    ∧ (delete_category 1 ⟨[sampleCat 1], [sampleProd 10 1, sampleProd 11 1]⟩ =
        .error (.http 400 ("Cannot delete category. " ++ toString 2 ++
          " products are using this category."))
      ∧ runOp ⟨[sampleCat 1], [sampleProd 10 1, sampleProd 11 1]⟩ (.deleteCat 1) =
          ⟨[sampleCat 1], [sampleProd 10 1, sampleProd 11 1]⟩)
    ∧ (delete_category 1 ⟨[sampleCat 1], []⟩ = .ok ⟨[], []⟩) := by
  refine ⟨(C2_delete_category ⟨[sampleCat 1], [sampleProd 10 1, sampleProd 11 1]⟩ 2).1
      (by decide),
    (C2_delete_category ⟨[sampleCat 1], [sampleProd 10 1, sampleProd 11 1]⟩ 1).2.1 2
      (by decide) (by decide) (by decide), ?_⟩
  have h := ((C2_delete_category ⟨[sampleCat 1], []⟩ 1).2.2 (by decide)
    (by intro p hp; cases hp)).1
  simpa using h

/-! ### C3: invalid category references are rejected without mutation -/

/-- C3: a product create whose `category_id` is not a key of the category
store, and a product update supplying a `category_id` that is not such a key
(while the product exists), fail with the 400 invalid-reference error and
leave both stores exactly as they were. -/
theorem C3_invalid_reference (st : State) :
    (∀ id_ t1 t2 (p : ProductCreate),
      (¬ ∃ c ∈ st.categories, c.id = p.category_id) →
      create_product id_ t1 t2 p st = .error (.http 400 "Category not found")
      ∧ runOp st (.createProd id_ t1 t2 p) = st)
    ∧ (∀ id_ now (u : ProductUpdate) cid,
        u.category_id = some (some cid) →
        (¬ ∃ c ∈ st.categories, c.id = cid) →
        (∃ q ∈ st.products, q.id = id_) →
        update_product id_ now u st = .error (.http 400 "Category not found")
        ∧ runOp st (.updateProd id_ now u) = st) := by
  constructor
  · intro id_ t1 t2 p habs
    have hany : st.categories.any (fun c => c.id == p.category_id) = false := by
      rw [List.any_eq_false]
      intro c hc
      simp only [beq_iff_eq]
      exact fun he => habs ⟨c, hc, he⟩
    exact ⟨by simp [create_product, hany], by simp [runOp, create_product, hany]⟩
  · intro id_ now u cid hcid habs hex
    have hany : st.categories.any (fun c => c.id == cid) = false := by
      rw [List.any_eq_false]
      intro c hc
      simp only [beq_iff_eq]
      exact fun he => habs ⟨c, hc, he⟩
    have hsome : (st.products.find? (fun q => q.id == id_)).isSome := by
      rw [List.find?_isSome]
      obtain ⟨q, hq, he⟩ := hex
      exact ⟨q, hq, by simpa using he⟩
    obtain ⟨current, hfind⟩ := Option.isSome_iff_exists.mp hsome
    exact ⟨by simp [update_product, hfind, hcid, hany],
      by simp [runOp, update_product, hfind, hcid, hany]⟩

/-- Witness for C3: in the store holding category 1 and product 10, creating a
product referencing category 2 and updating product 10 to category 2 both
fail with the invalid-reference error and leave the store unchanged. -/
theorem C3_invalid_reference_witness :
    (create_product 11 3 3 (sampleProdCreate 2) ⟨[sampleCat 1], [sampleProd 10 1]⟩ =
      .error (.http 400 "Category not found")
      ∧ runOp ⟨[sampleCat 1], [sampleProd 10 1]⟩ (.createProd 11 3 3 (sampleProdCreate 2)) =
        ⟨[sampleCat 1], [sampleProd 10 1]⟩)
    ∧ (update_product 10 4 (catOnlyUpdate 2) ⟨[sampleCat 1], [sampleProd 10 1]⟩ =
        .error (.http 400 "Category not found")
      ∧ runOp ⟨[sampleCat 1], [sampleProd 10 1]⟩ (.updateProd 10 4 (catOnlyUpdate 2)) =
        ⟨[sampleCat 1], [sampleProd 10 1]⟩) :=
  ⟨(C3_invalid_reference ⟨[sampleCat 1], [sampleProd 10 1]⟩).1 11 3 3
      (sampleProdCreate 2) (by decide),
   (C3_invalid_reference ⟨[sampleCat 1], [sampleProd 10 1]⟩).2 10 4
      (catOnlyUpdate 2) 2 rfl (by decide) (by decide)⟩

/-! ### C4: partial-update semantics -/

/-- C4: on a successful update, every field absent from the payload keeps its
stored value, every present field (including an explicit null where the Read
schema allows it) takes the supplied value, `updated_at` becomes the clock
value, `id` and `created_at` are unchanged, and nothing else in either store
changes. -/
theorem C4_partial_update (st : State) :
    (∀ category_id now (u : CategoryUpdate) current st2 c2,
      st.categories.find? (fun c => c.id == category_id) = some current →
      update_category category_id now u st = .ok (st2, c2) →
      c2.id = current.id ∧ c2.created_at = current.created_at ∧ c2.updated_at = now
      ∧ (u.name = none → c2.name = current.name)
      ∧ (∀ v, u.name = some (some v) → c2.name = v)
      ∧ (u.description = none → c2.description = current.description)
      ∧ (∀ v, u.description = some v → c2.description = v)
      ∧ (u.is_active = none → c2.is_active = current.is_active)
      ∧ (∀ v, u.is_active = some (some v) → c2.is_active = v)
      ∧ st2.products = st.products
      ∧ st2.categories = st.categories.map (fun c => if c.id == category_id then c2 else c))
    ∧ (∀ product_id now (u : ProductUpdate) current st2 p2,
      st.products.find? (fun p => p.id == product_id) = some current →
      update_product product_id now u st = .ok (st2, p2) →
      p2.id = current.id ∧ p2.created_at = current.created_at ∧ p2.updated_at = now
      ∧ (u.name = none → p2.name = current.name)
      ∧ (∀ v, u.name = some (some v) → p2.name = v)
      ∧ (u.description = none → p2.description = current.description)
      ∧ (∀ v, u.description = some v → p2.description = v)
      ∧ (u.sku = none → p2.sku = current.sku)
      ∧ (∀ v, u.sku = some (some v) → p2.sku = v)
      ∧ (u.price = none → p2.price = current.price)
      ∧ (∀ v, u.price = some (some v) → p2.price = v)
      ∧ (u.sale_price = none → p2.sale_price = current.sale_price)
      ∧ (∀ v, u.sale_price = some v → p2.sale_price = v)
      ∧ (u.cost = none → p2.cost = current.cost)
      ∧ (∀ v, u.cost = some v → p2.cost = v)
      ∧ (u.stock_quantity = none → p2.stock_quantity = current.stock_quantity)
      ∧ (∀ v, u.stock_quantity = some (some v) → p2.stock_quantity = v)
      ∧ (u.reorder_level = none → p2.reorder_level = current.reorder_level)
      ∧ (∀ v, u.reorder_level = some (some v) → p2.reorder_level = v)
      ∧ (u.category_id = none → p2.category_id = current.category_id)
      ∧ (∀ v, u.category_id = some (some v) → p2.category_id = v)
      ∧ (u.size = none → p2.size = current.size)
      ∧ (∀ v, u.size = some v → p2.size = v)
      ∧ (u.color = none → p2.color = current.color)
      ∧ (∀ v, u.color = some v → p2.color = v)
      ∧ (u.material = none → p2.material = current.material)
      ∧ (∀ v, u.material = some v → p2.material = v)
      ∧ (u.is_active = none → p2.is_active = current.is_active)
      ∧ (∀ v, u.is_active = some (some v) → p2.is_active = v)
      ∧ st2.products = st.products.map (fun p => if p.id == product_id then p2 else p)
      ∧ st2.categories = st.categories) := by
  constructor
  · intro category_id now u current st2 c2 hfind hu
    simp only [update_category, hfind] at hu
    split at hu
    · next n b hn hb =>
      injection hu with hres
      injection hres with h1 h2
      subst h1
      subst h2
      refine ⟨rfl, rfl, rfl, ?_, ?_, ?_, ?_, ?_, ?_, rfl, rfl⟩
      · intro h
        rw [h] at hn
        simp only [Option.getD_none, Option.some.injEq] at hn
        exact hn.symm
      · intro v h
        rw [h] at hn
        simp only [Option.getD_some, Option.some.injEq] at hn
        exact hn.symm
      · intro h
        simp [h]
      · intro v h
        simp [h]
      · intro h
        rw [h] at hb
        simp only [Option.getD_none, Option.some.injEq] at hb
        exact hb.symm
      · intro v h
        rw [h] at hb
        simp only [Option.getD_some, Option.some.injEq] at hb
        exact hb.symm
    · simp at hu
  · intro product_id now u current st2 p2 hfind hu
    simp only [update_product, hfind] at hu
    split at hu
    · simp at hu
    · next hguard =>
      split at hu
      · next n s pr sq rl ci ia hn hs hpr hsq hrl hci hia =>
        injection hu with hres
        injection hres with h1 h2
        subst h1
        subst h2
        refine ⟨rfl, rfl, rfl, ?_, ?_, ?_, ?_, ?_, ?_, ?_, ?_, ?_, ?_, ?_, ?_, ?_, ?_,
          ?_, ?_, ?_, ?_, ?_, ?_, ?_, ?_, ?_, ?_, ?_, ?_, rfl, rfl⟩
        · intro h
          rw [h] at hn
          simp only [Option.getD_none, Option.some.injEq] at hn
          exact hn.symm
        · intro v h
          rw [h] at hn
          simp only [Option.getD_some, Option.some.injEq] at hn
          exact hn.symm
        · intro h
          simp [h]
        · intro v h
          simp [h]
        · intro h
          rw [h] at hs
          simp only [Option.getD_none, Option.some.injEq] at hs
          exact hs.symm
        · intro v h
          rw [h] at hs
          simp only [Option.getD_some, Option.some.injEq] at hs
          exact hs.symm
        · intro h
          rw [h] at hpr
          simp only [Option.getD_none, Option.some.injEq] at hpr
          exact hpr.symm
        · intro v h
          rw [h] at hpr
          simp only [Option.getD_some, Option.some.injEq] at hpr
          exact hpr.symm
        · intro h
          simp [h]
        · intro v h
          simp [h]
        · intro h
          simp [h]
        · intro v h
          simp [h]
        · intro h
          rw [h] at hsq
          simp only [Option.getD_none, Option.some.injEq] at hsq
          exact hsq.symm
        · intro v h
          rw [h] at hsq
          simp only [Option.getD_some, Option.some.injEq] at hsq
          exact hsq.symm
        · intro h
          rw [h] at hrl
          simp only [Option.getD_none, Option.some.injEq] at hrl
          exact hrl.symm
        · intro v h
          rw [h] at hrl
          simp only [Option.getD_some, Option.some.injEq] at hrl
          exact hrl.symm
        · intro h
          rw [h] at hci
          simp only [Option.getD_none, Option.some.injEq] at hci
          exact hci.symm
        · intro v h
          rw [h] at hci
          simp only [Option.getD_some, Option.some.injEq] at hci
          exact hci.symm
        · intro h
          simp [h]
        · intro v h
          simp [h]
        · intro h
          simp [h]
        · intro v h
          simp [h]
        · intro h
          simp [h]
        · intro v h
          simp [h]
        · intro h
          rw [h] at hia
          simp only [Option.getD_none, Option.some.injEq] at hia
          exact hia.symm
        · intro v h
          rw [h] at hia
          simp only [Option.getD_some, Option.some.injEq] at hia
          exact hia.symm
      · simp at hu

/-- Witness for C4: renaming category 1 at clock 7 changes only the name and
`updated_at`; repricing product 10 at clock 9 changes only the price and
`updated_at`. -/
theorem C4_partial_update_witness :
    renamedCat.name = "Renamed"
    ∧ renamedCat.description = (sampleCat 1).description
    ∧ renamedCat.created_at = (sampleCat 1).created_at
    ∧ renamedCat.updated_at = 7
    ∧ repricedProd.price = 99
    ∧ repricedProd.name = (sampleProd 10 1).name
    ∧ repricedProd.created_at = (sampleProd 10 1).created_at
    ∧ repricedProd.updated_at = 9 := by
  have hc := (C4_partial_update ⟨[sampleCat 1], [sampleProd 10 1]⟩).1 1 7
    renameUpdate (sampleCat 1) ⟨[renamedCat], [sampleProd 10 1]⟩ renamedCat
    (by decide) (by decide)
  have hp := (C4_partial_update ⟨[sampleCat 1], [sampleProd 10 1]⟩).2 10 9
    repriceUpdate (sampleProd 10 1) ⟨[sampleCat 1], [repricedProd]⟩ repricedProd
    (by decide) (by decide)
  obtain ⟨-, hcca, hcua, -, hcn, hcdabs, -, -, -, -, -⟩ := hc
  obtain ⟨-, hpca, hpua, hpnabs, -, -, -, -, -, -, hppr, -, -, -, -, -, -, -, -, -,
    -, -, -, -, -, -, -, -, -, -, -⟩ := hp
  exact ⟨hcn ("Renamed") rfl, hcdabs rfl, hcca, hcua, hppr 99 rfl, hpnabs rfl, hpca, hpua⟩

/-! ### C6: create followed by get returns the created representation -/

/-- A `find?` by the inserted key returns the inserted element (category
instance of `find?_dictInsert`). -/
theorem find?_insertCat (l : List CategoryRead) (c : CategoryRead) {k : Nat}
    (hk : c.id = k) : (insertCat l c).find? (fun x => x.id == k) = some c :=
  find?_dictInsert hk

/-- A `find?` by the inserted key returns the inserted element (product
instance of `find?_dictInsert`). -/
theorem find?_insertProd (l : List ProductRead) (p : ProductRead) {k : Nat}
    (hk : p.id = k) : (insertProd l p).find? (fun x => x.id == k) = some p :=
  find?_dictInsert hk

/-- C6: creating a category (or, when the referenced category exists, a
product) and then fetching the returned id succeeds and returns exactly the
representation returned by the create call, server-assigned `id`,
`created_at` and `updated_at` included. -/
theorem C6_round_trip (st : State) :
    (∀ id_ t1 t2 (p : CategoryCreate),
      get_category (create_category id_ t1 t2 p st).2.id (create_category id_ t1 t2 p st).1 =
        .ok (create_category id_ t1 t2 p st).2)
    ∧ (∀ id_ t1 t2 (p : ProductCreate) st2 pr,
        create_product id_ t1 t2 p st = .ok (st2, pr) →
        get_product pr.id st2 = .ok pr) := by
  constructor
  · intro id_ t1 t2 p
    show (match (insertCat st.categories _).find? (fun c => c.id == id_) with
      | none => Except.error (Err.http 404 "Category not found")
      | some c => Except.ok c) = _
    rw [@find?_insertCat st.categories
      ⟨id_, p.name, p.description, p.is_active, t1, t2⟩ id_ rfl]
    rfl
  · intro id_ t1 t2 p st2 pr hcp
    simp only [create_product] at hcp
    split at hcp
    · simp at hcp
    · injection hcp with hres
      injection hres with h1 h2
      subst h1
      subst h2
      show (match (insertProd st.products _).find? (fun q => q.id == id_) with
        | none => Except.error (Err.http 404 "Product not found")
        | some q => Except.ok q) = _
      rw [@find?_insertProd st.products
        ⟨id_, p.name, p.description, p.sku, p.price, p.sale_price, p.cost,
          p.stock_quantity, p.reorder_level, p.category_id, p.size, p.color,
          p.material, p.is_active, t1, t2⟩ id_ rfl]

/-- Witness for C6: creating category 5 in the empty store and fetching id 5
returns the created representation; creating product 10 under category 1 and
fetching id 10 returns it. -/
theorem C6_round_trip_witness :
    get_category 5 (create_category 5 2 3 ⟨"Apparel", none, true⟩ ⟨[], []⟩).1 =
      .ok (create_category 5 2 3 ⟨"Apparel", none, true⟩ ⟨[], []⟩).2
    ∧ get_product 10 ⟨[sampleCat 1], [⟨10, "Tee", none, "T1", 10, none, none, 1, 5, 1,
        none, none, none, true, 0, 0⟩]⟩ =
      .ok ⟨10, "Tee", none, "T1", 10, none, none, 1, 5, 1, none, none, none, true, 0, 0⟩ := by
  constructor
  · exact (C6_round_trip ⟨[], []⟩).1 5 2 3 ⟨"Apparel", none, true⟩
  · exact (C6_round_trip ⟨[sampleCat 1], []⟩).2 10 0 0 (sampleProdCreate 1)
      ⟨[sampleCat 1], [⟨10, "Tee", none, "T1", 10, none, none, 1, 5, 1,
        none, none, none, true, 0, 0⟩]⟩
      ⟨10, "Tee", none, "T1", 10, none, none, 1, 5, 1, none, none, none, true, 0, 0⟩
      (by decide)

/-! ### C7: timestamp invariants -/

theorem TSInv_le {st : State} {lo hi : Nat} (h : TSInv st lo) (hlh : lo ≤ hi) :
    TSInv st hi :=
  ⟨fun c hc => ⟨(h.1 c hc).1, le_trans (h.1 c hc).2 hlh⟩,
   fun p hp => ⟨(h.2 p hp).1, le_trans (h.2 p hp).2 hlh⟩⟩

theorem mono_append {lo : Nat} {xs ys : List Nat} :
    mono lo (xs ++ ys) ↔ mono lo xs ∧ mono (lastT lo xs) ys := by
  induction xs generalizing lo with
  | nil => simp [mono, lastT]
  | cons x xs ih => simp [mono, lastT, ih, and_assoc]

theorem lastT_append (lo : Nat) (xs ys : List Nat) :
    lastT lo (xs ++ ys) = lastT (lastT lo xs) ys := by
  induction xs generalizing lo with
  | nil => rfl
  | cons x xs ih => simpa [lastT] using ih x

theorem runOp_preserves_TSInv (st : State) (op : Op) (lo : Nat)
    (h : TSInv st lo) (hm : mono lo (opTimes op)) :
    TSInv (runOp st op) (lastT lo (opTimes op)) := by
  cases op with
  | createCat id_ t1 t2 p =>
    obtain ⟨h1, h2, -⟩ := hm
    constructor
    · intro c hc
      rcases mem_dictInsert hc with h' | h'
      · exact ⟨(h.1 c h').1, le_trans (h.1 c h').2 (le_trans h1 h2)⟩
      · subst h'
        exact ⟨h2, le_refl _⟩
    · intro q hq
      exact ⟨(h.2 q hq).1, le_trans (h.2 q hq).2 (le_trans h1 h2)⟩
  | updateCat id_ now u =>
    obtain ⟨h1, -⟩ := hm
    simp only [runOp]
    cases hu : update_category id_ now u st with
    | error e => exact TSInv_le h h1
    | ok res =>
      obtain ⟨st2, c2⟩ := res
      show TSInv st2 now
      unfold update_category at hu
      split at hu
      · simp at hu
      · next current hfind =>
        have hcurmem := List.mem_of_find?_eq_some hfind
        split at hu
        · next n b hn hb =>
          injection hu with hres
          injection hres with hA hB
          subst hA
          subst hB
          constructor
          · intro c hc
            rcases mem_mapReplace hc with h' | h'
            · exact ⟨(h.1 c h').1, le_trans (h.1 c h').2 h1⟩
            · subst h'
              exact ⟨le_trans (le_trans (h.1 current hcurmem).1
                (h.1 current hcurmem).2) h1, le_refl _⟩
          · intro q hq
            exact ⟨(h.2 q hq).1, le_trans (h.2 q hq).2 h1⟩
        · simp at hu
  | deleteCat id_ =>
    simp only [runOp]
    cases hd : delete_category id_ st with
    | error e => exact h
    | ok st2 =>
      show TSInv st2 lo
      simp only [delete_category] at hd
      split at hd
      · simp at hd
      · split at hd
        · simp at hd
        · injection hd with hst2
          subst hst2
          exact ⟨fun c hc => h.1 c (List.mem_filter.mp hc).1, h.2⟩
  | createProd id_ t1 t2 p =>
    obtain ⟨h1, h2, -⟩ := hm
    simp only [runOp]
    cases hc : create_product id_ t1 t2 p st with
    | error e => exact TSInv_le h (le_trans h1 h2)
    | ok res =>
      obtain ⟨st2, pr⟩ := res
      show TSInv st2 t2
      unfold create_product at hc
      split at hc
      · simp at hc
      · injection hc with hres
        injection hres with hA hB
        subst hA
        subst hB
        constructor
        · intro c hc2
          exact ⟨(h.1 c hc2).1, le_trans (h.1 c hc2).2 (le_trans h1 h2)⟩
        · intro q hq
          rcases mem_dictInsert hq with h' | h'
          · exact ⟨(h.2 q h').1, le_trans (h.2 q h').2 (le_trans h1 h2)⟩
          · subst h'
            exact ⟨h2, le_refl _⟩
  | updateProd id_ now u =>
    obtain ⟨h1, -⟩ := hm
    simp only [runOp]
    cases hu : update_product id_ now u st with
    | error e => exact TSInv_le h h1
    | ok res =>
      obtain ⟨st2, p2⟩ := res
      show TSInv st2 now
      unfold update_product at hu
      split at hu
      · simp at hu
      · next current hfind =>
        have hcurmem := List.mem_of_find?_eq_some hfind
        split at hu
        · simp at hu
        · split at hu
          · next n s pr sq rl ci ia hn hs hpr hsq hrl hci hia =>
            injection hu with hres
            injection hres with hA hB
            subst hA
            subst hB
            constructor
            · intro c hc
              exact ⟨(h.1 c hc).1, le_trans (h.1 c hc).2 h1⟩
            · intro q hq
              rcases mem_mapReplace hq with h' | h'
              · exact ⟨(h.2 q h').1, le_trans (h.2 q h').2 h1⟩
              · subst h'
                exact ⟨le_trans (le_trans (h.2 current hcurmem).1
                  (h.2 current hcurmem).2) h1, le_refl _⟩
          · simp at hu
  | deleteProd id_ =>
    simp only [runOp]
    cases hd : delete_product id_ st with
    | error e => exact h
    | ok st2 =>
      show TSInv st2 lo
      unfold delete_product at hd
      split at hd
      · simp at hd
      · injection hd with hst2
        subst hst2
        exact ⟨h.1, fun q hq => h.2 q (List.mem_filter.mp hq).1⟩

theorem foldl_runOp_TSInv (ops : List Op) (st : State) (lo : Nat)
    (h : TSInv st lo) (hm : mono lo (traceTimes ops)) :
    TSInv (ops.foldl runOp st) (lastT lo (traceTimes ops)) := by
  induction ops generalizing st lo with
  | nil => exact h
  | cons op rest ih =>
    have htr : traceTimes (op :: rest) = opTimes op ++ traceTimes rest := by
      simp [traceTimes]
    rw [htr] at hm
    obtain ⟨hm1, hm2⟩ := mono_append.mp hm
    rw [htr, lastT_append]
    exact ih (runOp st op) (lastT lo (opTimes op))
      (runOp_preserves_TSInv st op lo h hm1) hm2

/-- C7: along any call sequence whose clock readings are non-decreasing, every
stored entity always satisfies `created_at ≤ updated_at`; moreover a
successful update never changes `created_at`, sets `updated_at` to the clock
value, and (when the clock has not gone backwards) never decreases
`updated_at`. -/
theorem C7_timestamps :
    (∀ ops : List Op, mono 0 (traceTimes ops) →
      (∀ c ∈ (runOps ops).categories, c.created_at ≤ c.updated_at)
      ∧ (∀ p ∈ (runOps ops).products, p.created_at ≤ p.updated_at))
    ∧ (∀ st category_id now (u : CategoryUpdate) current st2 c2,
        st.categories.find? (fun c => c.id == category_id) = some current →
        update_category category_id now u st = .ok (st2, c2) →
        c2.created_at = current.created_at ∧ c2.updated_at = now
        ∧ (current.updated_at ≤ now → current.updated_at ≤ c2.updated_at))
    ∧ (∀ st product_id now (u : ProductUpdate) current st2 p2,
        st.products.find? (fun p => p.id == product_id) = some current →
        update_product product_id now u st = .ok (st2, p2) →
        p2.created_at = current.created_at ∧ p2.updated_at = now
        ∧ (current.updated_at ≤ now → current.updated_at ≤ p2.updated_at)) := by
  refine ⟨?_, ?_, ?_⟩
  · intro ops hm
    have h0 : TSInv State.empty 0 :=
      ⟨fun c hc => absurd hc (List.not_mem_nil c),
       fun p hp => absurd hp (List.not_mem_nil p)⟩
    have h := foldl_runOp_TSInv ops State.empty 0 h0 hm
    exact ⟨fun c hc => (h.1 c hc).1, fun p hp => (h.2 p hp).1⟩
  · intro st category_id now u current st2 c2 hfind hu
    simp only [update_category, hfind] at hu
    split at hu
    · next n b hn hb =>
      injection hu with hres
      injection hres with hA hB
      subst hA
      subst hB
      exact ⟨rfl, rfl, fun hle => hle⟩
    · simp at hu
  · intro st product_id now u current st2 p2 hfind hu
    simp only [update_product, hfind] at hu
    split at hu
    · simp at hu
    · split at hu
      · next n s pr sq rl ci ia hn hs hpr hsq hrl hci hia =>
        injection hu with hres
        injection hres with hA hB
        subst hA
        subst hB
        exact ⟨rfl, rfl, fun hle => hle⟩
      · simp at hu

/-- Witness for C7: along the well-timed sequence create-then-rename, every
stored entity satisfies `created_at ≤ updated_at`; the concrete category and
product updates keep `created_at` and move `updated_at` to the clock value. -/
theorem C7_timestamps_witness :
    ((∀ c ∈ (runOps [Op.createCat 1 0 1 ⟨"Apparel", none, true⟩,
          Op.updateCat 1 2 renameUpdate]).categories, c.created_at ≤ c.updated_at)
      ∧ (∀ p ∈ (runOps [Op.createCat 1 0 1 ⟨"Apparel", none, true⟩,
          Op.updateCat 1 2 renameUpdate]).products, p.created_at ≤ p.updated_at))
    ∧ (renamedCat.created_at = (sampleCat 1).created_at ∧ renamedCat.updated_at = 7
        ∧ ((sampleCat 1).updated_at ≤ 7 → (sampleCat 1).updated_at ≤ renamedCat.updated_at))
    ∧ (repricedProd.created_at = (sampleProd 10 1).created_at ∧ repricedProd.updated_at = 9
        ∧ ((sampleProd 10 1).updated_at ≤ 9 →
            (sampleProd 10 1).updated_at ≤ repricedProd.updated_at)) := by
  refine ⟨C7_timestamps.1 _ ?_, ?_, ?_⟩
  · simp [traceTimes, opTimes, mono]
  · exact C7_timestamps.2.1 ⟨[sampleCat 1], []⟩ 1 7 renameUpdate (sampleCat 1)
      ⟨[renamedCat], []⟩ renamedCat (by decide) (by decide)
  · exact C7_timestamps.2.2 ⟨[sampleCat 1], [sampleProd 10 1]⟩ 10 9 repriceUpdate
      (sampleProd 10 1) ⟨[sampleCat 1], [repricedProd]⟩ repricedProd (by decide) (by decide)

/-! ### C5: product list filtering -/

theorem mem_optFilter {l : List γ} {o : Option β} {f : β → γ → Bool} {x : γ} :
    x ∈ optFilter o f l ↔ x ∈ l ∧ ∀ b, o = some b → f b x = true := by
  cases o with
  | none => simp [optFilter]
  | some b => simp [optFilter, List.mem_filter]

theorem mem_lowStockFilter {l : List ProductRead} {o : Option Bool} {x : ProductRead} :
    x ∈ lowStockFilter o l ↔
      x ∈ l ∧ (o = some true → x.stock_quantity ≤ x.reorder_level) := by
  cases o with
  | none => simp [lowStockFilter]
  | some b => cases b <;> simp [lowStockFilter, List.mem_filter]

/-- C5: a product is kept by `list_products` exactly when it is in the store
and passes every supplied filter (name and sku case-insensitively as
substrings, category and active flag exactly, prices against the binary64
value of the price, low stock as stock at most the reorder level); absent
filters exclude nothing.  On the specification's two-product store,
`low_stock=true` returns only the Mug and `min_price=10` only the Hoodie. -/
theorem C5_product_filters :
    (∀ (f : ProductFilters) (st : State) (p : ProductRead),
      p ∈ list_products f st ↔
        p ∈ st.products
        ∧ (∀ n, f.name = some n → strContains (strLower n) (strLower p.name) = true)
        ∧ (∀ s, f.sku = some s → strContains (strUpper s) (strUpper p.sku) = true)
        ∧ (∀ cid, f.category_id = some cid → p.category_id = cid)
        ∧ (∀ b, f.is_active = some b → p.is_active = b)
        ∧ (∀ m, f.min_price = some m → m ≤ toF64 p.price)
        ∧ (∀ m, f.max_price = some m → toF64 p.price ≤ m)
        ∧ (f.low_stock = some true → p.stock_quantity ≤ p.reorder_level))
    ∧ list_products { low_stock := some true } ⟨[sampleCat 1], [mugProd, hoodieProd]⟩ =
        [mugProd]
    ∧ list_products { min_price := some 10 } ⟨[sampleCat 1], [mugProd, hoodieProd]⟩ =
        [hoodieProd] := by
  refine ⟨?_, by decide, by decide⟩
  intro f st p
  simp only [list_products, mem_lowStockFilter, mem_optFilter, beq_iff_eq,
    decide_eq_true_eq]
  tauto

/-- Witness for C5: the Mug the `low_stock=true` query returns is indeed in
the store and at or below its reorder level. -/
theorem C5_product_filters_witness :
    mugProd ∈ [mugProd, hoodieProd] ∧ mugProd.stock_quantity ≤ mugProd.reorder_level := by
  have h := (C5_product_filters.1 { low_stock := some true }
    ⟨[sampleCat 1], [mugProd, hoodieProd]⟩ mugProd).mp (by decide)
  exact ⟨h.1, h.2.2.2.2.2.2.2 rfl⟩

/-! ### C8: the price range filter on binary64-rounded values -/

/-- Counterexample to C8 as stated: with `max_price = 2^53` the filter keeps
`bigPriceProd` although its exact decimal price `2^53 + 1` is greater than the
bound — the comparison happens after `float(...)` conversion, which loses
precision. -/
theorem C8_price_filter_counterexample :
    list_products { max_price := some 9007199254740992 } ⟨[sampleCat 1], [bigPriceProd]⟩ =
      [bigPriceProd]
    ∧ ¬(bigPriceProd.price ≤ (9007199254740992 : ℚ)) := by
  exact ⟨by decide, by decide⟩

/-- C8 (amended): with both bounds supplied, `list_products` keeps exactly the
products whose binary64-rounded price lies within the bounds, inclusively; the
exact decimal price participates only through its binary64 value.  A price
exactly equal to a bound is kept (the Mug at price 5 with `min_price = 5`). -/
theorem C8_price_filter_float :
    (∀ (st : State) (minp maxp : ℚ),
      list_products { min_price := some minp, max_price := some maxp } st =
        st.products.filter
          (fun p => decide (minp ≤ toF64 p.price) && decide (toF64 p.price ≤ maxp)))
    ∧ list_products { min_price := some 5 } ⟨[sampleCat 1], [mugProd, hoodieProd]⟩ =
        [mugProd, hoodieProd] := by
  refine ⟨?_, by decide⟩
  intro st minp maxp
  simp only [list_products, optFilter, lowStockFilter, List.filter_filter]
  exact List.filter_congr (fun a _ => by rw [Bool.and_comm])

/-! ### C9: empty names are accepted, not rejected -/

/-- Counterexample to C9 as stated: creating a category whose `name` is the
empty string succeeds and stores the empty name (no non-emptiness validation
exists in the schemas). -/
theorem C9_nonempty_name_counterexample :
    (create_category 1 0 0 ⟨"", none, true⟩ State.empty).1.categories =
      [⟨1, "", none, true, 0, 0⟩]
    ∧ (⟨1, "", none, true, 0, 0⟩ : CategoryRead).name = "" :=
  ⟨by decide, rfl⟩

/-- C9 (amended): `name` is required but not checked for non-emptiness — a
category or product create, and a successful category or product update that
supplies the name, store the supplied name verbatim, the empty string
included. -/
theorem C9_name_not_validated (st : State) (id_ t1 t2 : Nat) :
    (∀ p : CategoryCreate,
      (create_category id_ t1 t2 p st).2.name = p.name
      ∧ (create_category id_ t1 t2 p st).2 ∈ (create_category id_ t1 t2 p st).1.categories)
    ∧ (∀ (p : ProductCreate) st2 pr, create_product id_ t1 t2 p st = .ok (st2, pr) →
        pr.name = p.name ∧ pr ∈ st2.products)
    ∧ (∀ category_id now (u : CategoryUpdate) st2 c2,
        update_category category_id now u st = .ok (st2, c2) →
        (∀ s, u.name = some (some s) → c2.name = s) ∧ c2 ∈ st2.categories)
    ∧ (∀ product_id now (u : ProductUpdate) st2 p2,
        update_product product_id now u st = .ok (st2, p2) →
        (∀ s, u.name = some (some s) → p2.name = s) ∧ p2 ∈ st2.products) := by
  refine ⟨?_, ?_, ?_, ?_⟩
  · intro p
    exact ⟨rfl, self_mem_dictInsert _ _ _⟩
  · intro p st2 pr hc
    simp only [create_product] at hc
    split at hc
    · simp at hc
    · injection hc with hres
      injection hres with h1 h2
      subst h1
      subst h2
      exact ⟨rfl, self_mem_dictInsert _ _ _⟩
  · intro category_id now u st2 c2 hu
    unfold update_category at hu
    split at hu
    · simp at hu
    · next current hfind =>
      have hcur : current.id = category_id := by simpa using List.find?_some hfind
      have hcurmem := List.mem_of_find?_eq_some hfind
      split at hu
      · next n b hn hb =>
        injection hu with hres
        injection hres with h1 h2
        subst h1
        subst h2
        constructor
        · intro s hs
          rw [hs] at hn
          simp only [Option.getD_some, Option.some.injEq] at hn
          exact hn.symm
        · exact List.mem_map.mpr ⟨current, hcurmem, by simp [hcur]⟩
      · simp at hu
  · intro product_id now u st2 p2 hu
    unfold update_product at hu
    split at hu
    · simp at hu
    · next current hfind =>
      have hcur : current.id = product_id := by simpa using List.find?_some hfind
      have hcurmem := List.mem_of_find?_eq_some hfind
      split at hu
      · simp at hu
      · split at hu
        · next n s pr sq rl ci ia hn hs hpr hsq hrl hci hia =>
          injection hu with hres
          injection hres with h1 h2
          subst h1
          subst h2
          constructor
          · intro s2 hs2
            rw [hs2] at hn
            simp only [Option.getD_some, Option.some.injEq] at hn
            exact hn.symm
          · exact List.mem_map.mpr ⟨current, hcurmem, by simp [hcur]⟩
        · simp at hu

/-- Witness for the amended C9: the empty-named category and product are
stored verbatim, by create and by update. -/
theorem C9_name_not_validated_witness :
    ((create_category 1 0 0 ⟨"", none, true⟩ State.empty).2.name = ""
      ∧ (create_category 1 0 0 ⟨"", none, true⟩ State.empty).2 ∈
          (create_category 1 0 0 ⟨"", none, true⟩ State.empty).1.categories)
    ∧ (emptyNameProd.name = ""
      ∧ emptyNameProd ∈ (⟨[sampleCat 1], [emptyNameProd]⟩ : State).products)
    ∧ (emptiedCat.name = ""
      ∧ emptiedCat ∈ (⟨[emptiedCat], []⟩ : State).categories)
    ∧ (emptiedProd.name = ""
      ∧ emptiedProd ∈ (⟨[sampleCat 1], [emptiedProd]⟩ : State).products) := by
  refine ⟨?_, ?_, ?_, ?_⟩
  · have h := (C9_name_not_validated State.empty 1 0 0).1 ⟨"", none, true⟩
    exact ⟨h.1, h.2⟩
  · have h := (C9_name_not_validated ⟨[sampleCat 1], []⟩ 2 0 0).2.1 emptyNameProdCreate
      ⟨[sampleCat 1], [emptyNameProd]⟩ emptyNameProd (by decide)
    exact ⟨h.1, h.2⟩
  · have h := (C9_name_not_validated ⟨[sampleCat 1], []⟩ 0 0 0).2.2.1 1 7
      emptyNameCatUpdate ⟨[emptiedCat], []⟩ emptiedCat (by decide)
    exact ⟨h.1 "" rfl, h.2⟩
  · have h := (C9_name_not_validated ⟨[sampleCat 1], [sampleProd 10 1]⟩ 0 0 0).2.2.2 10 8
      emptyNameProdUpdate ⟨[sampleCat 1], [emptiedProd]⟩ emptiedProd (by decide)
    exact ⟨h.1 "" rfl, h.2⟩

/-! ### C10: low_stock=false is a no-op -/

/-- C10: supplying `low_stock=false` is the same as omitting the filter — for
every store and every combination of the other filters the two queries return
the same list (`false` does not select well-stocked products). -/
theorem C10_low_stock_false_noop (f : ProductFilters) (st : State) :
    list_products { f with low_stock := some false } st =
      list_products { f with low_stock := none } st := rfl
